import Mathlib

/-!
Verification of the core process-orchestration layer of the
`agent-alz-assistant` repository, a shallow embedding of
`src/agent_alz_assistant/agent.py` (class `ClaudeAgent`).

Modelling decisions:
* The session registry `self.sessions` (a Python dict whose values are
  always `True`, so only key membership matters) is a `List String` of
  keys.
* Byte streams and decoded text are both `List Char`; `bytes.decode()`
  is the identity in this model.
* The external process's observable behaviour is a parameter
  (`SpawnOutcome` / `ProcBehavior`): either spawning raises, or the
  process produces some raw stdout bytes, raw stderr bytes and an exit
  code.
* `asyncio`'s cooperative interleaving of the two `readline` loops in
  `asyncio.gather(read_stdout(), read_stderr())` is a parameter
  `sched : List Bool` choosing, at each step where both streams still
  have lines, which loop runs next.  Lines 40-42 of `agent.py` contain
  no `await`, so a session-mode resolution is atomic and concurrent
  resolutions form a sequential trace.
* The observable effects of one `chat` call (resolution result, updated
  registry, argv list, sink invocations, operation order, returned
  value or raised error) are collected in a `ChatOutcome` record.
-/

namespace AlzAgent

/-- Semantics of `asyncio.StreamReader.readline`: split a raw stream into
lines, each line keeping its terminating newline; the final line may
lack one.  `stdout_lines` / `stderr_lines` in `agent.py` are exactly
this applied to the full stream contents. -/
def splitLinesKeep : List Char → List (List Char)
  | [] => []
  | c :: rest =>
    if c = '\n' then ['\n'] :: splitLinesKeep rest
    else
      match splitLinesKeep rest with
      | [] => [[c]]
      | l :: ls => (c :: l) :: ls

/-- Whitespace predicate of Python `str.strip()` (ASCII whitespace). -/
def isSpaceChar (c : Char) : Bool :=
  c = ' ' || c = '\t' || c = '\n' || c = '\r' || c = '\x0b' || c = '\x0c'

/-- Model of Python `str.strip()`: drop leading and trailing whitespace. -/
def pyStrip (s : List Char) : List Char :=
  ((s.dropWhile isSpaceChar).reverse.dropWhile isSpaceChar).reverse

/-- Lines 40-42 of `agent.py`:
`is_first_message = session_id not in self.sessions` and, when first,
`self.sessions[session_id] = True`.  Returns `(is_first_message,
updated sessions)`. -/
def resolve (sessions : List String) (sessionId : String) :
    Bool × List String :=
  if sessions.contains sessionId then (false, sessions)
  else (true, sessionId :: sessions)

/-- Lines 46-60 of `agent.py`: build the `claude` argv list. -/
def buildCmd (sessionId : String) (isFirstMessage : Bool)
    (mcpConfigExists : Bool) (mcpConfigPath : String) : List String :=
  ["claude", "--dangerously-skip-permissions"] ++
    (if isFirstMessage then ["--session-id", sessionId]
     else ["--resume", sessionId]) ++
    (if mcpConfigExists then ["--mcp-config", mcpConfigPath] else [])

/-- Observable behaviour of a successfully spawned external process:
the raw bytes it writes to each stream and its exit status. -/
structure ProcBehavior where
  stdoutData : List Char
  stderrData : List Char
  returncode : Int
  deriving DecidableEq, Repr

/-- Either `asyncio.create_subprocess_exec` raises, or it yields a
process with some observable behaviour. -/
inductive SpawnOutcome where
  | fail
  | ok (proc : ProcBehavior)
  deriving DecidableEq, Repr, Inhabited

/-- The ordered operations one `chat` call performs on the process,
lines 64-110 of `agent.py`. -/
inductive Event where
  | spawn
  | writeStdin
  | closeStdin
  | readOut (line : List Char)
  | readErr (line : List Char)
  | wait
  | checkReturn
  deriving DecidableEq, Repr

/-- What one `chat` call returns / raises. -/
inductive TurnResult where
  /-- Normal return of the stripped stdout text (line 116). -/
  | ok (text : List Char)
  /-- Effect of `raise RuntimeError(f"Claude CLI failed: {error_msg}")` (line 112). -/
  | commandFailure (msg : List Char)
  /-- The exception raised by `create_subprocess_exec` propagating out. -/
  | spawnError
  deriving DecidableEq, Repr, Inhabited

/-- One cooperative interleaving of the two readline loops: when both
streams still have lines, the schedule picks which loop runs next;
an exhausted schedule drains stdout first, then stderr. -/
def mergeBySchedule {α : Type} : List Bool → List α → List α → List α
  | [], xs, ys => xs ++ ys
  | _ :: _, [], ys => ys
  | _ :: _, x :: xs, [] => x :: xs
  | true :: sch, x :: xs, y :: ys => x :: mergeBySchedule sch xs (y :: ys)
  | false :: sch, x :: xs, y :: ys => y :: mergeBySchedule sch (x :: xs) ys

/-- All observable effects of one `chat` call. -/
structure ChatOutcome where
  /-- Value of `is_first_message` (line 40). -/
  isNew : Bool
  /-- State of `self.sessions` after the call. -/
  sessions' : List String
  /-- The argv list passed to `create_subprocess_exec`. -/
  cmd : List String
  /-- The arguments of the successive `on_output` invocations. -/
  sinkTrace : List (List Char)
  /-- The ordered operations performed on the process. -/
  events : List Event
  /-- The returned value or raised error. -/
  result : TurnResult
  deriving DecidableEq, Repr, Inhabited

/-- Shallow embedding of `ClaudeAgent.chat` (lines 26-116 of
`agent.py`).  `sessions` is the registry state `self.sessions` on
entry; `hasSink` is whether `on_output` was provided; `spawn` and
`sched` parameterise the environment (process behaviour and stream
interleaving). -/
def chat (sessions : List String) (_query : String) (sessionId : String)
    (_history : List String) (mcpConfigExists : Bool)
    (mcpConfigPath : String) (hasSink : Bool) (spawn : SpawnOutcome)
    (sched : List Bool) : ChatOutcome :=
  let r := resolve sessions sessionId
  let isFirstMessage := r.1
  let sessions' := r.2
  let cmd := buildCmd sessionId isFirstMessage mcpConfigExists mcpConfigPath
  match spawn with
  | .fail =>
      { isNew := isFirstMessage
        sessions' := sessions'
        cmd := cmd
        sinkTrace := []
        events := [Event.spawn]
        result := TurnResult.spawnError }
  | .ok proc =>
      let stdout_lines := splitLinesKeep proc.stdoutData
      let stderr_lines := splitLinesKeep proc.stderrData
      let merged := mergeBySchedule sched (stdout_lines.map Sum.inl)
        (stderr_lines.map Sum.inr)
      let result :=
        if proc.returncode ≠ 0 then
          TurnResult.commandFailure ("Claude CLI failed: ".data ++
            (if stderr_lines.isEmpty then "Unknown error".data
             else stderr_lines.flatten))
        else
          TurnResult.ok (pyStrip stdout_lines.flatten)
      { isNew := isFirstMessage
        sessions' := sessions'
        cmd := cmd
        sinkTrace :=
          if hasSink then merged.map (Sum.elim id id) else []
        events := [Event.spawn, Event.writeStdin, Event.closeStdin] ++
          merged.map (fun x => match x with
            | Sum.inl l => Event.readOut l
            | Sum.inr l => Event.readErr l) ++
          [Event.wait, Event.checkReturn]
        result := result }

/-- Everything one `chat` call consumes besides the registry state. -/
structure TurnInput where
  query : String
  sessionId : String
  history : List String
  mcpConfigExists : Bool
  mcpConfigPath : String
  hasSink : Bool
  spawn : SpawnOutcome
  sched : List Bool
  deriving Inhabited

/-- A sequence of `chat` calls against one `ClaudeAgent` instance,
threading `self.sessions` through. -/
def runChats (sessions : List String) : List TurnInput → List ChatOutcome
  | [] => []
  | t :: ts =>
    let out := chat sessions t.query t.sessionId t.history
      t.mcpConfigExists t.mcpConfigPath t.hasSink t.spawn t.sched
    out :: runChats out.sessions' ts

/-- Does the list contain the element `x` immediately followed by `y`?
Used to state "the argv list contains flag `x` followed by value `y`". -/
def hasAdjPair : List String → String → String → Bool
  | [], _, _ => false
  | [_], _, _ => false
  | a :: b :: rest, x, y => (a == x && b == y) || hasAdjPair (b :: rest) x y

/-- The list `zs` is an order-preserving interleaving of `xs` and `ys`:
every element of `xs` and of `ys` occurs in `zs` exactly once, `xs`'s
elements in `xs`'s order and `ys`'s elements in `ys`'s order. -/
inductive Interleaving {α : Type} : List α → List α → List α → Prop
  | nil : Interleaving [] [] []
  | left {x : α} {xs ys zs : List α} :
      Interleaving xs ys zs → Interleaving (x :: xs) ys (x :: zs)
  | right {y : α} {xs ys zs : List α} :
      Interleaving xs ys zs → Interleaving xs (y :: ys) (y :: zs)

theorem Interleaving.nil_left {α : Type} :
    ∀ ys : List α, Interleaving [] ys ys
  | [] => .nil
  | _ :: ys => .right (Interleaving.nil_left ys)

theorem Interleaving.nil_right {α : Type} :
    ∀ xs : List α, Interleaving xs [] xs
  | [] => .nil
  | _ :: xs => .left (Interleaving.nil_right xs)

theorem Interleaving.append {α : Type} :
    ∀ xs ys : List α, Interleaving xs ys (xs ++ ys)
  | [], ys => by simpa using Interleaving.nil_left ys
  | x :: xs, ys => .left (Interleaving.append xs ys)

/-- Every schedule produces an order-preserving interleaving of the two
line streams. -/
theorem mergeBySchedule_interleaving {α : Type} (sch : List Bool)
    (xs ys : List α) : Interleaving xs ys (mergeBySchedule sch xs ys) := by
  induction sch generalizing xs ys with
  | nil => simpa [mergeBySchedule] using Interleaving.append xs ys
  | cons b sch ih =>
    cases xs with
    | nil => simpa [mergeBySchedule] using Interleaving.nil_left ys
    | cons x xs =>
      cases ys with
      | nil => simpa [mergeBySchedule] using Interleaving.nil_right (x :: xs)
      | cons y ys =>
        cases b
        · simpa [mergeBySchedule] using Interleaving.right (ih (x :: xs) ys)
        · simpa [mergeBySchedule] using Interleaving.left (ih xs (y :: ys))

theorem Interleaving.map {α β : Type} {f : α → β}
    {xs ys zs : List α} (h : Interleaving xs ys zs) :
    Interleaving (xs.map f) (ys.map f) (zs.map f) := by
  induction h with
  | nil => exact .nil
  | left _ ih => exact .left ih
  | right _ ih => exact .right ih

theorem Interleaving.mem_or {α : Type} {xs ys zs : List α}
    (h : Interleaving xs ys zs) : ∀ z ∈ zs, z ∈ xs ∨ z ∈ ys := by
  induction h with
  | nil => simp
  | left _ ih =>
    intro z hz
    rcases List.mem_cons.mp hz with rfl | hz
    · exact Or.inl (List.mem_cons_self _ _)
    · rcases ih z hz with h' | h'
      · exact Or.inl (List.mem_cons_of_mem _ h')
      · exact Or.inr h'
  | right _ ih =>
    intro z hz
    rcases List.mem_cons.mp hz with rfl | hz
    · exact Or.inr (List.mem_cons_self _ _)
    · rcases ih z hz with h' | h'
      · exact Or.inl h'
      · exact Or.inr (List.mem_cons_of_mem _ h')

/-- Concatenating the readline lines of a stream reconstructs the raw
stream: no byte is duplicated, dropped or reordered. -/
theorem splitLinesKeep_flatten :
    ∀ s : List Char, (splitLinesKeep s).flatten = s := by
  intro s
  induction s with
  | nil => rfl
  | cons c rest ih =>
    by_cases hc : c = '\n'
    · subst hc
      simp [splitLinesKeep, ih]
    · simp only [splitLinesKeep, if_neg hc]
      cases hsplit : splitLinesKeep rest with
      | nil =>
        have hrest : rest = [] := by
          rw [← ih, hsplit]
          rfl
        simp [hrest]
      | cons l ls =>
        have h2 : (l :: ls).flatten = rest := by
          rw [← hsplit]
          exact ih
        simp only [List.flatten_cons] at h2 ⊢
        simp [h2]

/-- Every readline line is nonempty (an empty read means end of
stream, never a delivered line). -/
theorem splitLinesKeep_ne_nil :
    ∀ s : List Char, ∀ l ∈ splitLinesKeep s, l ≠ [] := by
  intro s
  induction s with
  | nil => simp [splitLinesKeep]
  | cons c rest ih =>
    by_cases hc : c = '\n'
    · subst hc
      simp only [splitLinesKeep, if_pos rfl]
      intro l hl
      rcases List.mem_cons.mp hl with rfl | hl
      · simp
      · exact ih l hl
    · simp only [splitLinesKeep, if_neg hc]
      cases hsplit : splitLinesKeep rest with
      | nil => simp
      | cons l₀ ls =>
        intro l hl
        rcases List.mem_cons.mp hl with rfl | hl
        · simp
        · exact ih l (hsplit ▸ List.mem_cons_of_mem _ hl)

/-- No readline line has a newline anywhere except possibly as its
final character: lines are never split and never merged. -/
theorem splitLinesKeep_no_interior :
    ∀ s : List Char, ∀ l ∈ splitLinesKeep s, ∀ ch ∈ l.dropLast, ch ≠ '\n' := by
  intro s
  induction s with
  | nil => simp [splitLinesKeep]
  | cons c rest ih =>
    by_cases hc : c = '\n'
    · subst hc
      simp only [splitLinesKeep, if_pos rfl]
      intro l hl
      rcases List.mem_cons.mp hl with rfl | hl
      · simp
      · exact ih l hl
    · simp only [splitLinesKeep, if_neg hc]
      cases hsplit : splitLinesKeep rest with
      | nil =>
        intro l hl
        rcases List.mem_cons.mp hl with rfl | hl
        · simp
        · simp at hl
      | cons l₀ ls =>
        intro l hl
        rcases List.mem_cons.mp hl with rfl | hl
        · have hne : l₀ ≠ [] :=
            splitLinesKeep_ne_nil rest l₀ (hsplit ▸ List.mem_cons_self _ _)
          rw [List.dropLast_cons_of_ne_nil hne]
          intro ch hch
          rcases List.mem_cons.mp hch with rfl | hch
          · exact hc
          · exact ih l₀ (hsplit ▸ List.mem_cons_self _ _) ch hch
        · exact ih l (hsplit ▸ List.mem_cons_of_mem _ hl)

/-- Every readline line except the stream's final one ends with the
newline character that terminated it. -/
theorem splitLinesKeep_terminated :
    ∀ s : List Char, ∀ l ∈ (splitLinesKeep s).dropLast,
      l.getLast? = some '\n' := by
  intro s
  induction s with
  | nil => simp [splitLinesKeep]
  | cons c rest ih =>
    by_cases hc : c = '\n'
    · subst hc
      have hs : splitLinesKeep ('\n' :: rest) = ['\n'] :: splitLinesKeep rest := by
        simp [splitLinesKeep]
      rw [hs]
      cases hsplit : splitLinesKeep rest with
      | nil => simp
      | cons t ts =>
        rw [List.dropLast_cons₂]
        intro l hl
        rcases List.mem_cons.mp hl with rfl | hl
        · simp
        · exact ih l (hsplit ▸ hl)
    · simp only [splitLinesKeep, if_neg hc]
      cases hsplit : splitLinesKeep rest with
      | nil => simp
      | cons l₀ ls =>
        cases ls with
        | nil => simp
        | cons a as =>
          rw [List.dropLast_cons₂]
          intro l hl
          rcases List.mem_cons.mp hl with rfl | hl
          · have hne : l₀ ≠ [] :=
              splitLinesKeep_ne_nil rest l₀ (hsplit ▸ List.mem_cons_self _ _)
            have hl₀ : l₀.getLast? = some '\n' := by
              have : l₀ ∈ (splitLinesKeep rest).dropLast := by
                rw [hsplit, List.dropLast_cons₂]
                exact List.mem_cons_self _ _
              exact ih l₀ this
            rcases List.exists_cons_of_ne_nil hne with ⟨b, l', rfl⟩
            simpa using hl₀
          · have : l ∈ (splitLinesKeep rest).dropLast := by
              rw [hsplit, List.dropLast_cons₂]
              exact List.mem_cons_of_mem _ hl
            exact ih l this

end AlzAgent
namespace AlzAgent

theorem resolve_fst (s : List String) (k : String) :
    (resolve s k).1 = !(s.contains k) := by
  by_cases h : k ∈ s <;> simp [resolve, h]

theorem resolve_snd_mem (s : List String) (k k' : String) :
    k' ∈ (resolve s k).2 ↔ (k' ∈ s ∨ k' = k) := by
  by_cases h : k ∈ s
  · simp only [resolve, h, List.elem_iff, if_pos, decide_True]
    constructor
    · exact Or.inl
    · rintro (hk | rfl)
      · exact hk
      · exact h
  · simp [resolve, h, List.mem_cons, or_comm]

theorem chat_isNew (s : List String) (q sid : String) (h : List String)
    (mcpE : Bool) (mcpP : String) (hs : Bool) (spawn : SpawnOutcome)
    (sched : List Bool) :
    (chat s q sid h mcpE mcpP hs spawn sched).isNew = (resolve s sid).1 := by
  cases spawn <;> rfl

theorem chat_sessions' (s : List String) (q sid : String) (h : List String)
    (mcpE : Bool) (mcpP : String) (hs : Bool) (spawn : SpawnOutcome)
    (sched : List Bool) :
    (chat s q sid h mcpE mcpP hs spawn sched).sessions' = (resolve s sid).2 := by
  cases spawn <;> rfl

theorem chat_cmd (s : List String) (q sid : String) (h : List String)
    (mcpE : Bool) (mcpP : String) (hs : Bool) (spawn : SpawnOutcome)
    (sched : List Bool) :
    (chat s q sid h mcpE mcpP hs spawn sched).cmd =
      buildCmd sid (resolve s sid).1 mcpE mcpP := by
  cases spawn <;> rfl

theorem runChats_getD_isNew (ts : List TurnInput) :
    ∀ (s : List String) (i : Nat), i < ts.length →
      (((runChats s ts).getD i default).isNew = true ↔
        ((ts.getD i default).sessionId ∉ s ∧
         (ts.getD i default).sessionId ∉ (ts.take i).map TurnInput.sessionId)) := by
  induction ts with
  | nil =>
    intro s i hi
    simp at hi
  | cons t ts ih =>
    intro s i hi
    cases i with
    | zero =>
      simp only [runChats, List.getD_cons_zero, List.take_zero, List.map_nil]
      rw [chat_isNew, resolve_fst]
      simp
    | succ n =>
      have hn : n < ts.length := Nat.lt_of_succ_lt_succ hi
      simp only [runChats, List.getD_cons_succ, List.take_succ_cons,
        List.map_cons]
      rw [ih _ n hn]
      simp only [chat_sessions', resolve_snd_mem, List.mem_cons]
      tauto

end AlzAgent
namespace AlzAgent

/-- C1 statement. -/
theorem chat_first_resolution_isNew (ts : List TurnInput) (i : Nat)
    (hi : i < ts.length) :
    ((runChats [] ts).getD i default).isNew = true ↔
      (ts.getD i default).sessionId ∉ (ts.take i).map TurnInput.sessionId := by
  rw [runChats_getD_isNew ts [] i hi]
  simp

/-- C1 witness. -/
theorem chat_first_resolution_isNew_witness :
    ((runChats []
        [⟨"What is APOE4?", "abc", [], false, "", true, .fail, []⟩,
         ⟨"hi", "other", [], false, "", true, .fail, []⟩,
         ⟨"And tau?", "abc", [], false, "", true, .fail, []⟩]).getD 2
          default).isNew = true ↔
      (([⟨"What is APOE4?", "abc", [], false, "", true, .fail, []⟩,
         ⟨"hi", "other", [], false, "", true, .fail, []⟩,
         ⟨"And tau?", "abc", [], false, "", true, .fail, []⟩] :
          List TurnInput).getD 2 default).sessionId ∉
        (([⟨"What is APOE4?", "abc", [], false, "", true, .fail, []⟩,
           ⟨"hi", "other", [], false, "", true, .fail, []⟩,
           ⟨"And tau?", "abc", [], false, "", true, .fail, []⟩] :
            List TurnInput).take 2).map TurnInput.sessionId :=
  chat_first_resolution_isNew
    [⟨"What is APOE4?", "abc", [], false, "", true, .fail, []⟩,
     ⟨"hi", "other", [], false, "", true, .fail, []⟩,
     ⟨"And tau?", "abc", [], false, "", true, .fail, []⟩] 2 (by simp)

theorem beq_pair_var_false {sid x a : String} (hax : a ≠ x) :
    ((sid == x) && (a == sid)) = false := by
  cases h : sid == x with
  | false => simp
  | true =>
    have hx : sid = x := by simpa using h
    subst hx
    simp [beq_eq_false_iff_ne, hax]

/-- C2 statement. -/
theorem chat_cmd_session_flag (s : List String) (q sid : String)
    (h : List String) (mcpE : Bool) (mcpP : String) (hs : Bool)
    (spawn : SpawnOutcome) (sched : List Bool) :
    hasAdjPair (chat s q sid h mcpE mcpP hs spawn sched).cmd
        "--session-id" sid = (chat s q sid h mcpE mcpP hs spawn sched).isNew
    ∧ hasAdjPair (chat s q sid h mcpE mcpP hs spawn sched).cmd
        "--resume" sid = !(chat s q sid h mcpE mcpP hs spawn sched).isNew := by
  rw [chat_cmd, chat_isNew]
  have hMS : ("--mcp-config" : String) ≠ "--session-id" := by decide
  have hMR : ("--mcp-config" : String) ≠ "--resume" := by decide
  cases (resolve s sid).1
  · cases mcpE
    · constructor
      · simp [buildCmd, hasAdjPair]
      · simp [buildCmd, hasAdjPair]
    · constructor
      · simp [buildCmd, hasAdjPair, beq_pair_var_false hMS]
      · simp [buildCmd, hasAdjPair]
  · cases mcpE
    · constructor
      · simp [buildCmd, hasAdjPair]
      · simp [buildCmd, hasAdjPair]
    · constructor
      · simp [buildCmd, hasAdjPair]
      · simp [buildCmd, hasAdjPair, beq_pair_var_false hMR]

end AlzAgent
namespace AlzAgent

/-- C8: for every turn the spawned command always includes the
non-interactive auto-approve flag `--dangerously-skip-permissions`,
and includes `--mcp-config` followed by the tool-configuration file's
path if and only if that file exists on disk at launch time. -/
theorem chat_cmd_flags (s : List String) (q sid : String)
    (h : List String) (mcpE : Bool) (mcpP : String) (hs : Bool)
    (spawn : SpawnOutcome) (sched : List Bool) :
    "--dangerously-skip-permissions" ∈
        (chat s q sid h mcpE mcpP hs spawn sched).cmd
    ∧ hasAdjPair (chat s q sid h mcpE mcpP hs spawn sched).cmd
        "--mcp-config" mcpP = mcpE := by
  rw [chat_cmd]
  cases (resolve s sid).1 <;> cases mcpE <;>
    exact ⟨by simp [buildCmd], by simp [buildCmd, hasAdjPair]⟩

/-- C3: for every turn whose external process exits with status 0,
`chat` returns the concatenation, in emission order, of all lines read
from stdout, stripped of leading and trailing whitespace. -/
theorem chat_success_result (s : List String) (q sid : String)
    (h : List String) (mcpE : Bool) (mcpP : String) (hs : Bool)
    (proc : ProcBehavior) (sched : List Bool)
    (h0 : proc.returncode = 0) :
    (chat s q sid h mcpE mcpP hs (.ok proc) sched).result =
      TurnResult.ok (pyStrip (splitLinesKeep proc.stdoutData).flatten) := by
  simp [chat, h0]

/-- C3 witness: a process that exits 0 after two stdout lines. -/
theorem chat_success_result_witness :
    (chat [] "What is APOE4?" "abc" [] false "" true
        (.ok ⟨"APOE4 is a risk allele.\nIt affects tau.\n".data, [], 0⟩)
        []).result =
      TurnResult.ok (pyStrip (splitLinesKeep
        "APOE4 is a risk allele.\nIt affects tau.\n".data).flatten) :=
  chat_success_result [] "What is APOE4?" "abc" [] false "" true
    ⟨"APOE4 is a risk allele.\nIt affects tau.\n".data, [], 0⟩ [] rfl

theorem count_spawn_readEvents (merged : List (List Char ⊕ List Char)) :
    (merged.map (fun x => match x with
      | Sum.inl l => Event.readOut l
      | Sum.inr l => Event.readErr l)).count Event.spawn = 0 := by
  rw [List.count_eq_zero]
  intro hmem
  rcases List.mem_map.mp hmem with ⟨x, _, hx⟩
  cases x <;> simp at hx

/-- C4: for every turn whose external process exits with a nonzero
status, `chat` raises (rather than returning) a `RuntimeError` whose
detail is the concatenation of all stderr lines in emission order, or
the placeholder "Unknown error" when no stderr line was produced; the
turn spawns the process exactly once (no automatic retry). -/
theorem chat_failure_result (s : List String) (q sid : String)
    (h : List String) (mcpE : Bool) (mcpP : String) (hs : Bool)
    (proc : ProcBehavior) (sched : List Bool)
    (hne : proc.returncode ≠ 0) :
    (chat s q sid h mcpE mcpP hs (.ok proc) sched).result =
      TurnResult.commandFailure ("Claude CLI failed: ".data ++
        (if (splitLinesKeep proc.stderrData).isEmpty then
          "Unknown error".data
         else (splitLinesKeep proc.stderrData).flatten))
    ∧ (chat s q sid h mcpE mcpP hs (.ok proc) sched).events.count
        Event.spawn = 1 := by
  constructor
  · simp [chat, hne]
  · simp [chat, List.count_append, List.count_cons, count_spawn_readEvents]

/-- C4 witness: a process that exits 1 with stderr "rate limited". -/
theorem chat_failure_result_witness :
    (chat [] "q" "abc" [] false "" true
        (.ok ⟨[], "rate limited\n".data, 1⟩) []).result =
      TurnResult.commandFailure ("Claude CLI failed: ".data ++
        (if (splitLinesKeep "rate limited\n".data).isEmpty then
          "Unknown error".data
         else (splitLinesKeep "rate limited\n".data).flatten))
    ∧ (chat [] "q" "abc" [] false "" true
        (.ok ⟨[], "rate limited\n".data, 1⟩) []).events.count
        Event.spawn = 1 :=
  chat_failure_result [] "q" "abc" [] false "" true
    ⟨[], "rate limited\n".data, 1⟩ [] (by decide)

theorem chat_sinkTrace (s : List String) (q sid : String)
    (h : List String) (mcpE : Bool) (mcpP : String) (hs : Bool)
    (proc : ProcBehavior) (sched : List Bool) :
    (chat s q sid h mcpE mcpP hs (.ok proc) sched).sinkTrace =
      if hs then
        (mergeBySchedule sched ((splitLinesKeep proc.stdoutData).map Sum.inl)
          ((splitLinesKeep proc.stderrData).map Sum.inr)).map (Sum.elim id id)
      else [] := rfl

theorem chat_events (s : List String) (q sid : String)
    (h : List String) (mcpE : Bool) (mcpP : String) (hs : Bool)
    (proc : ProcBehavior) (sched : List Bool) :
    (chat s q sid h mcpE mcpP hs (.ok proc) sched).events =
      [Event.spawn, Event.writeStdin, Event.closeStdin] ++
        (mergeBySchedule sched ((splitLinesKeep proc.stdoutData).map Sum.inl)
          ((splitLinesKeep proc.stderrData).map Sum.inr)).map
          (fun x => match x with
            | Sum.inl l => Event.readOut l
            | Sum.inr l => Event.readErr l) ++
        [Event.wait, Event.checkReturn] := rfl

theorem chat_sinkTrace_interleaving (s : List String) (q sid : String)
    (h : List String) (mcpE : Bool) (mcpP : String)
    (proc : ProcBehavior) (sched : List Bool) :
    Interleaving (splitLinesKeep proc.stdoutData)
      (splitLinesKeep proc.stderrData)
      (chat s q sid h mcpE mcpP true (.ok proc) sched).sinkTrace := by
  rw [chat_sinkTrace, if_pos rfl]
  have hm := mergeBySchedule_interleaving sched
    ((splitLinesKeep proc.stdoutData).map Sum.inl)
    ((splitLinesKeep proc.stderrData).map Sum.inr)
  have hmap := hm.map (f := Sum.elim id id)
  simpa [List.map_map, Sum.elim_comp_inl, Sum.elim_comp_inr] using hmap

/-- C5: for every turn with a sink provided, the sink is invoked
exactly once for each line the process writes to stdout or stderr,
lines of the same stream in emission order (the sink trace is an
order-preserving interleaving of the two line streams), and never
with a partial line (every delivered string is nonempty with no
interior newline). -/
theorem chat_sink_lines (s : List String) (q sid : String)
    (h : List String) (mcpE : Bool) (mcpP : String)
    (proc : ProcBehavior) (sched : List Bool) :
    Interleaving (splitLinesKeep proc.stdoutData)
      (splitLinesKeep proc.stderrData)
      (chat s q sid h mcpE mcpP true (.ok proc) sched).sinkTrace
    ∧ ∀ l ∈ (chat s q sid h mcpE mcpP true (.ok proc) sched).sinkTrace,
        l ≠ [] ∧ ∀ ch ∈ l.dropLast, ch ≠ '\n' := by
  refine ⟨chat_sinkTrace_interleaving s q sid h mcpE mcpP proc sched, ?_⟩
  intro l hl
  rcases (chat_sinkTrace_interleaving s q sid h mcpE mcpP proc
      sched).mem_or l hl with hin | hin
  · exact ⟨splitLinesKeep_ne_nil _ l hin, splitLinesKeep_no_interior _ l hin⟩
  · exact ⟨splitLinesKeep_ne_nil _ l hin, splitLinesKeep_no_interior _ l hin⟩

/-- C7: within every turn the operation order is: spawn, then write
the query to stdin and close it, then drain both output streams to
end-of-stream (the read events are an interleaving covering every
line of both streams -- the join of both read loops), and only then
wait for and evaluate the exit status. -/
theorem chat_event_order (s : List String) (q sid : String)
    (h : List String) (mcpE : Bool) (mcpP : String) (hs : Bool)
    (proc : ProcBehavior) (sched : List Bool) :
    ∃ reads,
      (chat s q sid h mcpE mcpP hs (.ok proc) sched).events =
        [Event.spawn, Event.writeStdin, Event.closeStdin] ++ reads ++
          [Event.wait, Event.checkReturn]
      ∧ Interleaving ((splitLinesKeep proc.stdoutData).map Event.readOut)
          ((splitLinesKeep proc.stderrData).map Event.readErr) reads := by
  refine ⟨_, chat_events s q sid h mcpE mcpP hs proc sched, ?_⟩
  have hm := mergeBySchedule_interleaving sched
    ((splitLinesKeep proc.stdoutData).map Sum.inl)
    ((splitLinesKeep proc.stderrData).map Sum.inr)
  have hmap := hm.map (f := fun x => match x with
    | Sum.inl l => Event.readOut l
    | Sum.inr l => Event.readErr l)
  simpa [List.map_map, Function.comp] using hmap

/-- C9: the `history` parameter of `chat` has no influence on the
turn: two calls agreeing on everything except `history` produce
identical outcomes (same resolution, registry update, command, sink
invocations, events and result). -/
theorem chat_history_noninterference (s : List String) (q sid : String)
    (h₁ h₂ : List String) (mcpE : Bool) (mcpP : String) (hs : Bool)
    (spawn : SpawnOutcome) (sched : List Bool) :
    chat s q sid h₁ mcpE mcpP hs spawn sched =
      chat s q sid h₂ mcpE mcpP hs spawn sched := rfl

/-- C10: every string passed to the sink is the decoded text of
exactly one stream line (nonempty, no interior newline, and every
line but the stream's last carries its terminating newline); the
lines concatenate back to the raw stream, so on exit 0 the result is
the stripped decoded concatenation of the raw stdout bytes. -/
theorem chat_line_fidelity (s : List String) (q sid : String)
    (h : List String) (mcpE : Bool) (mcpP : String) (hs : Bool)
    (proc : ProcBehavior) (sched : List Bool) :
    (∀ l ∈ (chat s q sid h mcpE mcpP hs (.ok proc) sched).sinkTrace,
        l ∈ splitLinesKeep proc.stdoutData ∨
          l ∈ splitLinesKeep proc.stderrData)
    ∧ (∀ l ∈ splitLinesKeep proc.stdoutData ++ splitLinesKeep proc.stderrData,
        l ≠ [] ∧ ∀ ch ∈ l.dropLast, ch ≠ '\n')
    ∧ (∀ l ∈ (splitLinesKeep proc.stdoutData).dropLast,
        l.getLast? = some '\n')
    ∧ (splitLinesKeep proc.stdoutData).flatten = proc.stdoutData
    ∧ (proc.returncode = 0 →
        (chat s q sid h mcpE mcpP hs (.ok proc) sched).result =
          TurnResult.ok (pyStrip proc.stdoutData)) := by
  refine ⟨?_, ?_, splitLinesKeep_terminated _, splitLinesKeep_flatten _, ?_⟩
  · intro l hl
    rw [chat_sinkTrace] at hl
    cases hs with
    | false => simp at hl
    | true =>
      rw [if_pos rfl] at hl
      have hm := mergeBySchedule_interleaving sched
        ((splitLinesKeep proc.stdoutData).map Sum.inl)
        ((splitLinesKeep proc.stderrData).map Sum.inr)
      have hmap := hm.map (f := Sum.elim id id)
      rw [List.map_map, List.map_map, Sum.elim_comp_inl, Sum.elim_comp_inr,
        List.map_id, List.map_id] at hmap
      exact hmap.mem_or l hl
  · intro l hl
    rcases List.mem_append.mp hl with hin | hin
    · exact ⟨splitLinesKeep_ne_nil _ l hin, splitLinesKeep_no_interior _ l hin⟩
    · exact ⟨splitLinesKeep_ne_nil _ l hin, splitLinesKeep_no_interior _ l hin⟩
  · intro h0
    simp [chat, h0, splitLinesKeep_flatten]

/-- C10 witness: the success result at a concrete turn is the
stripped raw stdout text. -/
theorem chat_line_fidelity_witness :
    (chat [] "q" "abc" [] false "" true
        (.ok ⟨" hello\nworld\n".data, [], 0⟩) []).result =
      TurnResult.ok (pyStrip " hello\nworld\n".data) :=
  (chat_line_fidelity [] "q" "abc" [] false "" true
    ⟨" hello\nworld\n".data, [], 0⟩ []).2.2.2.2 rfl

/-- C6 counterexample: for the previously-unseen key "k", a turn
whose process launch fails (so no creation step ever succeeded) still
mutates the registry: `chat` raises, yet "k" is recorded as created,
contradicting "if the turn fails before the creation step succeeds,
the registry state for that key is unchanged". -/
theorem chat_failed_spawn_still_marks :
    (chat [] "What is APOE4?" "k" [] false "" true
        SpawnOutcome.fail []).result = TurnResult.spawnError
    ∧ (chat [] "What is APOE4?" "k" [] false "" true
        SpawnOutcome.fail []).sessions' = ["k"] :=
  ⟨rfl, rfl⟩

/-- C6 amended: the registry marks a key as created at session-mode
resolution time, before the external process is launched; every turn
-- including one whose launch fails or whose process exits nonzero --
leaves the key marked created, so any subsequent turn for the same
key resolves `isNew = false` and issues the resume flag. -/
theorem chat_marks_created_at_resolution (s : List String)
    (q sid : String) (h : List String) (mcpE : Bool) (mcpP : String)
    (hs : Bool) (spawn : SpawnOutcome) (sched : List Bool) :
    sid ∈ (chat s q sid h mcpE mcpP hs spawn sched).sessions'
    ∧ ∀ (q₂ : String) (h₂ : List String) (mcpE₂ : Bool) (mcpP₂ : String)
        (hs₂ : Bool) (spawn₂ : SpawnOutcome) (sched₂ : List Bool),
        (chat (chat s q sid h mcpE mcpP hs spawn sched).sessions' q₂ sid
          h₂ mcpE₂ mcpP₂ hs₂ spawn₂ sched₂).isNew = false
        ∧ hasAdjPair (chat (chat s q sid h mcpE mcpP hs spawn
            sched).sessions' q₂ sid h₂ mcpE₂ mcpP₂ hs₂ spawn₂
            sched₂).cmd "--resume" sid = true := by
  have hmem : sid ∈ (chat s q sid h mcpE mcpP hs spawn sched).sessions' := by
    rw [chat_sessions']
    exact (resolve_snd_mem s sid sid).mpr (Or.inr rfl)
  refine ⟨hmem, fun q₂ h₂ mcpE₂ mcpP₂ hs₂ spawn₂ sched₂ => ?_⟩
  have hres : (resolve (chat s q sid h mcpE mcpP hs spawn
      sched).sessions' sid).1 = false := by
    rw [resolve_fst]
    simp [hmem]
  constructor
  · rw [chat_isNew, hres]
  · rw [chat_cmd, hres]
    simp [buildCmd, hasAdjPair]

end AlzAgent
